import Mathlib

/-!
Shallow embedding of `src/server.js` (an Express election-administration
backend).  JavaScript `Map` objects are modelled as association lists with
JS `Map.set` semantics (replace the entry if the key is present, otherwise
append, preserving insertion order).  JS numbers occurring as ids/ages are
modelled as `Int` (truthy iff nonzero), strings as `String` (truthy iff
nonempty), the DP epsilon/delta numbers as `ℚ`, timestamps as `Int`
(milliseconds; a field that fails to parse as a date is `none`).
-/

namespace ElectionServer

/-- `m.get k` for a JS `Map` modelled as an association list
(first entry with the key wins). -/
def getA {α β : Type} [DecidableEq α] (k : α) : List (α × β) → Option β
  | [] => none
  | (k', v) :: rest => if k' = k then some v else getA k rest

/-- `m.set k v` for a JS `Map`: replace in place if present, else append. -/
def setA {α β : Type} [DecidableEq α] (k : α) (v : β) : List (α × β) → List (α × β)
  | [] => [(k, v)]
  | (k', v') :: rest => if k' = k then (k, v) :: rest else (k', v') :: setA k v rest

/-- `m.delete k` for a JS `Map`. -/
def delA {α β : Type} [DecidableEq α] (k : α) : List (α × β) → List (α × β)
  | [] => []
  | (k', v') :: rest => if k' = k then rest else (k', v') :: delA k rest

theorem getA_setA_self {α β : Type} [DecidableEq α] (k : α) (v : β) (m : List (α × β)) :
    getA k (setA k v m) = some v := by
  induction m with
  | nil => simp [getA, setA]
  | cons p rest ih =>
    by_cases h : p.1 = k
    · simp [getA, setA, h]
    · simp [getA, setA, h, ih]

theorem getA_setA_ne {α β : Type} [DecidableEq α] (k k' : α) (v : β) (m : List (α × β))
    (h : k' ≠ k) : getA k' (setA k v m) = getA k' m := by
  induction m with
  | nil => simp [getA, setA, Ne.symm h]
  | cons p rest ih =>
    rcases p with ⟨k₀, v₀⟩
    by_cases hp : k₀ = k
    · subst hp
      simp [getA, setA, Ne.symm h]
    · simp only [setA, if_neg hp, getA]
      by_cases hp' : k₀ = k'
      · simp [hp']
      · simp [hp', ih]

theorem setA_of_getA_none {α β : Type} [DecidableEq α] (k : α) (v : β) (m : List (α × β))
    (h : getA k m = none) : setA k v m = m ++ [(k, v)] := by
  induction m with
  | nil => simp [setA]
  | cons p rest ih =>
    by_cases hp : p.1 = k
    · simp [getA, hp] at h
    · simp only [getA, hp, if_false] at h
      simp [setA, hp, ih h]

theorem mem_setA_self {α β : Type} [DecidableEq α] (k : α) (v : β) (m : List (α × β)) :
    (k, v) ∈ setA k v m := by
  induction m with
  | nil => simp [setA]
  | cons p rest ih =>
    by_cases hp : p.1 = k
    · simp [setA, hp]
    · simp only [setA, hp, if_false, List.mem_cons]
      exact Or.inr ih

/-! ### Core entities (lines 19, 130, 171-172 of `server.js`) -/

/-- A voter record: `{ voter_id, name, age, has_voted }` (line 40). -/
structure Voter where
  voter_id : Int
  name : String
  age : Int
  has_voted : Bool
  deriving DecidableEq, Repr

/-- A candidate record: `{ candidate_id, name, party, votes }` (line 146). -/
structure Candidate where
  candidate_id : Int
  name : String
  party : String
  votes : Nat
  deriving DecidableEq, Repr

/-- A vote record: `{ vote_id, voter_id, candidate_id, timestamp }` (line 203). -/
structure Vote where
  vote_id : Nat
  voter_id : Int
  candidate_id : Int
  timestamp : Int
  deriving DecidableEq, Repr

/-- The in-memory stores `voters`, `candidates`, `votes` and the global
counter `nextVoteId` (lines 19, 130, 171-172). -/
structure ElectionState where
  voters : List (Int × Voter)
  candidates : List (Int × Candidate)
  votes : List (Nat × Vote)
  nextVoteId : Nat
  deriving DecidableEq, Repr

/-- Initial state: empty maps, `nextVoteId = 101` (line 172). -/
def initState : ElectionState :=
  { voters := [], candidates := [], votes := [], nextVoteId := 101 }

/-! ### POST /api/voters (lines 25-44) -/

inductive RegVoterError where
  /-- "voter_id, name, and age are required" (409). -/
  | missingField
  /-- "voter must be at least 18 years old" (409). -/
  | underage
  /-- "voter with id already exists" (409). -/
  | duplicateVoter
  deriving DecidableEq, Repr

/-- `POST /api/voters`: `!voter_id || !name || age === undefined` is the
`MissingField` check; an id is falsy iff `0`, a name iff `""`; `age` is
`none` when the field is absent. -/
def registerVoter (s : ElectionState) (voter_id : Int) (name : String)
    (age : Option Int) : Except RegVoterError Voter × ElectionState :=
  if voter_id = 0 ∨ name = "" ∨ age = none then (.error .missingField, s)
  else match age with
    | none => (.error .missingField, s)
    | some a =>
      if a < 18 then (.error .underage, s)
      else match getA voter_id s.voters with
        | some _ => (.error .duplicateVoter, s)
        | none =>
          let newVoter : Voter := ⟨voter_id, name, a, false⟩
          (.ok newVoter, { s with voters := setA voter_id newVoter s.voters })

/-! ### PUT /api/voters/:voter_id (lines 80-104) -/

inductive UpdateVoterError where
  | notFound
  | invalidAge
  deriving DecidableEq, Repr

/-- `PUT /api/voters/:voter_id`: updates `name`/`age` when provided. -/
def updateVoter (s : ElectionState) (voter_id : Int) (name : Option String)
    (age : Option Int) : Except UpdateVoterError Voter × ElectionState :=
  match getA voter_id s.voters with
  | none => (.error .notFound, s)
  | some voter =>
    match age with
    | some a =>
      if a < 18 then (.error .invalidAge, s)
      else
        let voter' := { voter with name := name.getD voter.name, age := a }
        (.ok voter', { s with voters := setA voter_id voter' s.voters })
    | none =>
      let voter' := { voter with name := name.getD voter.name }
      (.ok voter', { s with voters := setA voter_id voter' s.voters })

/-! ### DELETE /api/voters/:voter_id (lines 110-124) -/

inductive DeleteVoterError where
  | notFound
  deriving DecidableEq, Repr

/-- `DELETE /api/voters/:voter_id`. -/
def deleteVoter (s : ElectionState) (voter_id : Int) :
    Except DeleteVoterError Unit × ElectionState :=
  match getA voter_id s.voters with
  | none => (.error .notFound, s)
  | some _ => (.ok (), { s with voters := delA voter_id s.voters })

/-! ### POST /api/candidates (lines 133-150) -/

inductive RegCandError where
  /-- "candidate_id, name, and party are required" (409). -/
  | missingField
  /-- "candidate with id already exists" (409). -/
  | duplicateCandidate
  deriving DecidableEq, Repr

/-- `POST /api/candidates`: `!candidate_id || !name || !party` is the
`MissingField` check; new candidates start with `votes = 0` (line 146). -/
def registerCandidate (s : ElectionState) (candidate_id : Int) (name party : String) :
    Except RegCandError Candidate × ElectionState :=
  if candidate_id = 0 ∨ name = "" ∨ party = "" then (.error .missingField, s)
  else match getA candidate_id s.candidates with
    | some _ => (.error .duplicateCandidate, s)
    | none =>
      let newCandidate : Candidate := ⟨candidate_id, name, party, 0⟩
      (.ok newCandidate, { s with candidates := setA candidate_id newCandidate s.candidates })

/-! ### POST /api/votes (lines 175-216) -/

inductive VoteError where
  /-- "voter_id and candidate_id are required" (409). -/
  | missingField
  /-- "voter ... was not found" (417). -/
  | voterNotFound
  /-- "voter ... has already voted" (423). -/
  | alreadyVoted
  /-- "candidate ... was not found" (409). -/
  | candidateNotFound
  deriving DecidableEq, Repr

/-- `POST /api/votes`: validation in source order; on success allocates
`vote_id = nextVoteId++`, records the timestamp (`now`, standing for
`new Date().toISOString()`), stores the vote, sets `voter.has_voted`,
and increments `candidate.votes` (lines 200-213). -/
def castVote (s : ElectionState) (voter_id candidate_id : Int) (now : Int) :
    Except VoteError Vote × ElectionState :=
  if voter_id = 0 ∨ candidate_id = 0 then (.error .missingField, s)
  else match getA voter_id s.voters with
    | none => (.error .voterNotFound, s)
    | some voter =>
      if voter.has_voted then (.error .alreadyVoted, s)
      else match getA candidate_id s.candidates with
        | none => (.error .candidateNotFound, s)
        | some candidate =>
          let newVote : Vote := ⟨s.nextVoteId, voter_id, candidate_id, now⟩
          (.ok newVote,
            { s with
              votes := setA s.nextVoteId newVote s.votes
              nextVoteId := s.nextVoteId + 1
              voters := setA voter_id { voter with has_voted := true } s.voters
              candidates :=
                setA candidate_id { candidate with votes := candidate.votes + 1 } s.candidates })

/-! ### GET /api/votes/range (lines 352-383) -/

inductive RangeError where
  /-- "candidate with id ... was not found" (417). -/
  | notFound
  /-- "Invalid date format" (400). -/
  | invalidInput
  /-- "invalid interval: from > to" (424). -/
  | invalidInterval
  deriving DecidableEq, Repr

/-- `GET /api/votes/range`: `fromTs`/`toTs` model `new Date(req.query.from)` /
`new Date(req.query.to)` as parsed milliseconds, `none` when the bound fails
to parse (`isNaN`).  Checks follow source order: candidate first, then date
validity, then `from > to`; otherwise counts the candidate's votes with
timestamp in the closed interval (lines 370-375). -/
def rangeQuery (s : ElectionState) (candidate_id : Int) (fromTs toTs : Option Int) :
    Except RangeError Nat :=
  if candidate_id = 0 ∨ getA candidate_id s.candidates = none then .error .notFound
  else match fromTs, toTs with
    | some f, some t =>
      if f > t then .error .invalidInterval
      else .ok (((s.votes.map Prod.snd).filter (fun v => v.candidate_id = candidate_id)).filter
        (fun v => f ≤ v.timestamp ∧ v.timestamp ≤ t)).length
    | _, _ => .error .invalidInput

/-! ### Operation sequences over the core ledger

`Op` covers every handler that mutates `voters`, `candidates`, `votes` or
`nextVoteId` (the weighted-vote handler, q14, stores nothing: line 343 is
commented out).  `step` discards the HTTP response and keeps the state. -/

inductive Op where
  | registerVoter (voter_id : Int) (name : String) (age : Option Int)
  | updateVoter (voter_id : Int) (name : Option String) (age : Option Int)
  | deleteVoter (voter_id : Int)
  | registerCandidate (candidate_id : Int) (name party : String)
  | castVote (voter_id candidate_id : Int) (now : Int)
  deriving DecidableEq, Repr

def step (s : ElectionState) : Op → ElectionState
  | .registerVoter v n a => (registerVoter s v n a).2
  | .updateVoter v n a => (updateVoter s v n a).2
  | .deleteVoter v => (deleteVoter s v).2
  | .registerCandidate c n p => (registerCandidate s c n p).2
  | .castVote v c t => (castVote s v c t).2

def runFrom (s : ElectionState) : List Op → ElectionState
  | [] => s
  | op :: rest => runFrom (step s op) rest

/-- The server state after a sequence of requests against a fresh server. -/
def run (ops : List Op) : ElectionState := runFrom initState ops

/-- How many cast-vote requests in `ops` succeed, starting from state `s`. -/
def castSuccesses (s : ElectionState) : List Op → Nat
  | [] => 0
  | op :: rest =>
    (match op with
      | .castVote v c t =>
        (match (castVote s v c t).1 with
          | .ok _ => 1
          | .error _ => 0)
      | _ => 0) + castSuccesses (step s op) rest

/-- Sum of the `votes` counters over all stored candidates. -/
def sumVotes (m : List (Int × Candidate)) : Nat :=
  (m.map (fun p => p.2.votes)).sum

/-! ### POST /api/ballots/encrypted (lines 390-425) -/

/-- Placeholder ZK proof verification (lines 393-396): always `true`. -/
def verifyZKProof (_ciphertext _zk_proof _voter_pubkey _nullifier _signature : String) :
    Bool := true

/-- A stored encrypted ballot: `{ ballot_id, status, nullifier, anchored_at }`
(line 421). -/
structure EncBallot where
  ballot_id : String
  status : String
  nullifier : String
  anchored_at : Int
  deriving DecidableEq, Repr

inductive EncError where
  /-- "All fields are required" (400). -/
  | missingField
  /-- "duplicate nullifier: ballot already submitted" (409). -/
  | duplicateNullifier
  /-- "invalid zk proof" (425). -/
  | invalidProof
  deriving DecidableEq, Repr

/-- `POST /api/ballots/encrypted`: all six fields truthy, then the duplicate-
nullifier scan over stored ballots (line 407), then proof verification.
`fresh_id` models `b_${uuidv4()}` and `now` the `anchored_at` timestamp. -/
def submitEncrypted (ballots : List (String × EncBallot))
    (election_id ciphertext zk_proof voter_pubkey nullifier signature : String)
    (fresh_id : String) (now : Int) :
    Except EncError EncBallot × List (String × EncBallot) :=
  if election_id = "" ∨ ciphertext = "" ∨ zk_proof = "" ∨ voter_pubkey = "" ∨
      nullifier = "" ∨ signature = "" then (.error .missingField, ballots)
  else if ballots.any (fun b => b.2.nullifier = nullifier) then
    (.error .duplicateNullifier, ballots)
  else if ¬ verifyZKProof ciphertext zk_proof voter_pubkey nullifier signature then
    (.error .invalidProof, ballots)
  else
    let newBallot : EncBallot := ⟨fresh_id, "accepted", nullifier, now⟩
    (.ok newBallot, setA fresh_id newBallot ballots)

/-! ### POST /api/results/homomorphic (lines 431-484) -/

/-- A trustee decryption share `{ trustee_id, share, proof }` (line 444). -/
structure TrusteeShare where
  trustee_id : String
  share : String
  proof : String
  deriving DecidableEq, Repr

/-- The stored tally result `{ election_id, encrypted_tally_root,
candidate_tallies, decryption_proof, transparency }` (line 478). -/
structure HomoResult where
  election_id : String
  encrypted_tally_root : String
  candidate_tallies : List (Int × Nat)
  decryption_proof : String
  deriving DecidableEq, Repr

inductive HomoOutcome where
  /-- "election_id and trustee_decrypt_shares are required" (400). -/
  | missingField
  /-- "Each trustee share must have trustee_id, share, and proof" (400). -/
  | malformedShare
  /-- The handler throws a runtime `TypeError` (surfaced as a 500 by the
  error middleware) with the given message. -/
  | typeError (msg : String)
  | ok (result : HomoResult)
  deriving DecidableEq, Repr

/-- `POST /api/results/homomorphic`: after validation the handler evaluates
`candidates.map((candidate) => ...)` (line 457), but `candidates` is the
JavaScript `Map` created at line 130 and `Map.prototype` has no `map`
method, so this expression throws `TypeError: candidates.map is not a
function` before any result is built or stored.  `shares = none` models a
`trustee_decrypt_shares` field that is absent or not an array
(`!Array.isArray(...)`). -/
def homomorphicTally (tallies : List (String × HomoResult)) (election_id : String)
    (shares : Option (List TrusteeShare)) :
    HomoOutcome × List (String × HomoResult) :=
  match shares with
  | none => (.missingField, tallies)
  | some ss =>
    if election_id = "" ∨ ss.length = 0 then (.missingField, tallies)
    else if ss.any (fun sh => sh.trustee_id = "" ∨ sh.share = "" ∨ sh.proof = "") then
      (.malformedShare, tallies)
    else (.typeError "candidates.map is not a function", tallies)

/-! ### POST /api/analytics/dp (lines 490-533) -/

/-- The `query` object `{ type, dimension, buckets }` (line 497).
`buckets = none` models an absent/falsy `buckets` field; a present array —
even an empty one — is truthy in JavaScript and is `some`. -/
structure DpQuery where
  type : String
  dimension : String
  buckets : Option (List String)
  deriving DecidableEq, Repr

inductive DpError where
  /-- "election_id and valid query parameters are required" (400). -/
  | missingField
  /-- "epsilon must be a positive number" (400). -/
  | invalidEpsilon
  /-- "delta must be between 0 and 1" (400). -/
  | invalidDelta
  /-- "Differential privacy budget exceeded for this election" (403). -/
  | budgetExceeded
  deriving DecidableEq, Repr

/-- The 200 response body of the DP endpoint (lines 524-532). -/
structure DpResult where
  election_id : String
  query_type : String
  dimension : String
  histogram : List (String × Nat)
  epsilon_used : ℚ
  delta_used : ℚ
  remaining_budget : ℚ
  deriving DecidableEq, Repr

/-- The fixed maximum DP budget (line 509). -/
def maxBudget : ℚ := 1

/-- `POST /api/analytics/dp`: validation in source order; the budget check is
`currentBudget + epsilon > maxBudget` (line 510) with
`currentBudget = dpAnalyticsBudget.get(election_id) || 0` (line 508).
`noise` models `Math.floor(Math.random() * 100)` per bucket (line 517). -/
def dpQuery (budgets : List (String × ℚ)) (election_id : String) (q : DpQuery)
    (epsilon delta : ℚ) (noise : String → Nat) :
    Except DpError DpResult × List (String × ℚ) :=
  if election_id = "" ∨ q.type = "" ∨ q.dimension = "" ∨ q.buckets = none then
    (.error .missingField, budgets)
  else if epsilon ≤ 0 then (.error .invalidEpsilon, budgets)
  else if delta < 0 ∨ delta > 1 then (.error .invalidDelta, budgets)
  else
    let currentBudget := (getA election_id budgets).getD 0
    if currentBudget + epsilon > maxBudget then (.error .budgetExceeded, budgets)
    else
      let buckets := q.buckets.getD []
      let histogram := buckets.map (fun b => (b, noise b))
      let budgets' := setA election_id (currentBudget + epsilon) budgets
      (.ok { election_id := election_id, query_type := q.type, dimension := q.dimension,
             histogram := histogram, epsilon_used := epsilon, delta_used := delta,
             remaining_budget := maxBudget - (currentBudget + epsilon) }, budgets')

/-- A DP request as submitted over HTTP. -/
structure DpReq where
  election_id : String
  q : DpQuery
  epsilon : ℚ
  delta : ℚ
  deriving DecidableEq, Repr

/-- The budget map after a sequence of DP requests (noise is irrelevant to
the budget, so a fixed zero mechanism is used). -/
def dpRunFrom (budgets : List (String × ℚ)) : List DpReq → List (String × ℚ)
  | [] => budgets
  | r :: rest => dpRunFrom (dpQuery budgets r.election_id r.q r.epsilon r.delta (fun _ => 0)).2 rest

def dpRun (reqs : List DpReq) : List (String × ℚ) := dpRunFrom [] reqs

/-- The cumulative epsilon spent for an election (0 when never queried). -/
def dpSpent (budgets : List (String × ℚ)) (election_id : String) : ℚ :=
  (getA election_id budgets).getD 0

/-! ### POST /api/ballots/ranked (lines 541-572) -/

/-- A stored ranked ballot (line 566). -/
structure RankedBallot where
  ballot_id : String
  election_id : String
  voter_id : String
  ranking : List Int
  timestamp : Int
  deriving DecidableEq, Repr

inductive RankError where
  /-- "election_id, voter_id, and valid ranking array are required" (400). -/
  | missingField
  /-- "invalid timestamp format" (400). -/
  | invalidTimestamp
  /-- "voter ... has already submitted a ranked ballot for election ..." (409). -/
  | duplicateBallot
  deriving DecidableEq, Repr

/-- `POST /api/ballots/ranked`: `ranking = none` models an absent/non-array
ranking; `timestamp = none` a timestamp that fails to parse
(`isNaN(new Date(timestamp).getTime())`).  The duplicate check uses the
string key `` `${election_id}_${voter_id}` `` (line 559).  `fresh_id`
models `rb_${Math.floor(Math.random() * 10000)}`. -/
def submitRanked (ballots : List (String × RankedBallot)) (election_id voter_id : String)
    (ranking : Option (List Int)) (timestamp : Option Int) (fresh_id : String) :
    Except RankError RankedBallot × List (String × RankedBallot) :=
  if election_id = "" ∨ voter_id = "" ∨ ranking = none ∨ ranking = some [] then
    (.error .missingField, ballots)
  else match timestamp with
    | none => (.error .invalidTimestamp, ballots)
    | some ts =>
      let voterKey := election_id ++ "_" ++ voter_id
      match getA voterKey ballots with
      | some _ => (.error .duplicateBallot, ballots)
      | none =>
        let newBallot : RankedBallot :=
          ⟨fresh_id, election_id, voter_id, ranking.getD [], ts⟩
        (.ok newBallot, setA voterKey newBallot ballots)

/-! ### Ledger invariant -/

theorem getA_eq_none {α β : Type} [DecidableEq α] (k : α) (m : List (α × β))
    (h : ∀ p ∈ m, p.1 ≠ k) : getA k m = none := by
  induction m with
  | nil => rfl
  | cons p rest ih =>
    have hp := h p (List.mem_cons_self p rest)
    simp only [getA, if_neg hp]
    exact ih fun q hq => h q (List.mem_cons_of_mem p hq)

theorem sumVotes_append (m : List (Int × Candidate)) (k : Int) (c : Candidate) :
    sumVotes (m ++ [(k, c)]) = sumVotes m + c.votes := by
  simp [sumVotes]

theorem sumVotes_setA_succ (m : List (Int × Candidate)) (k : Int) (c : Candidate)
    (h : getA k m = some c) :
    sumVotes (setA k { c with votes := c.votes + 1 } m) = sumVotes m + 1 := by
  induction m with
  | nil => simp [getA] at h
  | cons p rest ih =>
    rcases p with ⟨k₀, c₀⟩
    by_cases hk : k₀ = k
    · subst hk
      simp only [getA, if_true, eq_self_iff_true, Option.some.injEq] at h
      subst h
      simp only [setA, if_true, eq_self_iff_true, sumVotes, List.map_cons, List.sum_cons]
      omega
    · simp only [getA, if_neg hk] at h
      simp only [setA, if_neg hk, sumVotes, List.map_cons, List.sum_cons]
      have := ih h
      simp only [sumVotes] at this
      omega

theorem chain_lt_append (l : List Nat) (k : Nat) (hc : List.Chain' (· < ·) l)
    (hb : ∀ x ∈ l, x < k) : List.Chain' (· < ·) (l ++ [k]) := by
  induction l with
  | nil => simp
  | cons a l ih =>
    rw [List.cons_append]
    rcases l with _ | ⟨b, l⟩
    · simp only [List.nil_append]
      exact List.chain'_pair.mpr (hb a (List.mem_cons_self a []))
    · rw [List.cons_append] at ih ⊢
      rw [List.chain'_cons] at hc ⊢
      exact ⟨hc.1, ih hc.2 fun x hx => hb x (List.mem_cons_of_mem a hx)⟩

/-- Invariant over the core ledger: vote ids are bounded by `nextVoteId`,
stored in strictly increasing key order, and the candidates' counters sum
to the size of the vote ledger. -/
def Inv (s : ElectionState) : Prop :=
  (∀ p ∈ s.votes, p.1 < s.nextVoteId) ∧
  List.Chain' (· < ·) (s.votes.map Prod.fst) ∧
  sumVotes s.candidates = s.votes.length

theorem inv_init : Inv initState := by
  refine ⟨?_, ?_, ?_⟩ <;> simp [initState, sumVotes]

theorem registerVoter_keeps (s : ElectionState) (v : Int) (n : String) (a : Option Int) :
    (registerVoter s v n a).2.candidates = s.candidates ∧
    (registerVoter s v n a).2.votes = s.votes ∧
    (registerVoter s v n a).2.nextVoteId = s.nextVoteId := by
  unfold registerVoter
  repeat' split
  all_goals exact ⟨rfl, rfl, rfl⟩

theorem updateVoter_keeps (s : ElectionState) (v : Int) (n : Option String) (a : Option Int) :
    (updateVoter s v n a).2.candidates = s.candidates ∧
    (updateVoter s v n a).2.votes = s.votes ∧
    (updateVoter s v n a).2.nextVoteId = s.nextVoteId := by
  unfold updateVoter
  repeat' split
  all_goals exact ⟨rfl, rfl, rfl⟩

theorem deleteVoter_keeps (s : ElectionState) (v : Int) :
    (deleteVoter s v).2.candidates = s.candidates ∧
    (deleteVoter s v).2.votes = s.votes ∧
    (deleteVoter s v).2.nextVoteId = s.nextVoteId := by
  unfold deleteVoter
  repeat' split
  all_goals exact ⟨rfl, rfl, rfl⟩

theorem registerCandidate_keeps (s : ElectionState) (c : Int) (n p : String) :
    (registerCandidate s c n p).2.votes = s.votes ∧
    (registerCandidate s c n p).2.nextVoteId = s.nextVoteId := by
  unfold registerCandidate
  repeat' split
  all_goals exact ⟨rfl, rfl⟩

theorem registerCandidate_sum (s : ElectionState) (c : Int) (n p : String) :
    sumVotes (registerCandidate s c n p).2.candidates = sumVotes s.candidates := by
  unfold registerCandidate
  split
  · rfl
  · split
    · rfl
    · rename_i hnone
      simp [setA_of_getA_none _ _ _ hnone, sumVotes_append]

theorem castVote_error_state (s : ElectionState) (v c t : Int)
    (h : ∃ e, (castVote s v c t).1 = Except.error e) : (castVote s v c t).2 = s := by
  rcases h with ⟨e, he⟩
  unfold castVote at he ⊢
  repeat' split at he <;> try rfl
  all_goals simp_all

/-- Success branch of `castVote`, fully characterised. -/
theorem castVote_ok (s : ElectionState) (v c t : Int) (vt : Vote) (s' : ElectionState)
    (h : castVote s v c t = (.ok vt, s')) :
    ¬(v = 0 ∨ c = 0) ∧
    ∃ voter candidate, getA v s.voters = some voter ∧ voter.has_voted = false ∧
      getA c s.candidates = some candidate ∧
      vt = ⟨s.nextVoteId, v, c, t⟩ ∧
      s' = { s with
        votes := setA s.nextVoteId vt s.votes
        nextVoteId := s.nextVoteId + 1
        voters := setA v { voter with has_voted := true } s.voters
        candidates := setA c { candidate with votes := candidate.votes + 1 } s.candidates } := by
  unfold castVote at h
  split at h
  · simp at h
  · rename_i hval
    split at h
    · simp at h
    · rename_i voter hvoter
      split at h
      · simp at h
      · rename_i hnv
        split at h
        · simp at h
        · rename_i candidate hcand
          simp only [Prod.mk.injEq, Except.ok.injEq] at h
          refine ⟨hval, voter, candidate, hvoter, by simpa using hnv, hcand, h.1.symm, ?_⟩
          rw [← h.2, ← h.1]

theorem step_inv (s : ElectionState) (op : Op) (h : Inv s) :
    Inv (step s op) ∧ (step s op).votes.length = s.votes.length +
      (match op with
        | .castVote v c t =>
          (match (castVote s v c t).1 with
            | .ok _ => 1
            | .error _ => 0)
        | _ => 0) := by
  obtain ⟨hbound, hchain, hsum⟩ := h
  cases op with
  | registerVoter v n a =>
    show Inv (registerVoter s v n a).2 ∧ (registerVoter s v n a).2.votes.length = s.votes.length + 0
    obtain ⟨hc, hv, hn⟩ := registerVoter_keeps s v n a
    exact ⟨⟨by rw [hv, hn]; exact hbound, by rw [hv]; exact hchain,
      by rw [hc, hv]; exact hsum⟩, by simp [hv]⟩
  | updateVoter v n a =>
    show Inv (updateVoter s v n a).2 ∧ (updateVoter s v n a).2.votes.length = s.votes.length + 0
    obtain ⟨hc, hv, hn⟩ := updateVoter_keeps s v n a
    exact ⟨⟨by rw [hv, hn]; exact hbound, by rw [hv]; exact hchain,
      by rw [hc, hv]; exact hsum⟩, by simp [hv]⟩
  | deleteVoter v =>
    show Inv (deleteVoter s v).2 ∧ (deleteVoter s v).2.votes.length = s.votes.length + 0
    obtain ⟨hc, hv, hn⟩ := deleteVoter_keeps s v
    exact ⟨⟨by rw [hv, hn]; exact hbound, by rw [hv]; exact hchain,
      by rw [hc, hv]; exact hsum⟩, by simp [hv]⟩
  | registerCandidate c n p =>
    show Inv (registerCandidate s c n p).2 ∧
      (registerCandidate s c n p).2.votes.length = s.votes.length + 0
    obtain ⟨hv, hn⟩ := registerCandidate_keeps s c n p
    exact ⟨⟨by rw [hv, hn]; exact hbound, by rw [hv]; exact hchain,
      by rw [registerCandidate_sum, hv]; exact hsum⟩, by simp [hv]⟩
  | castVote v c t =>
    show Inv (castVote s v c t).2 ∧ (castVote s v c t).2.votes.length = s.votes.length +
      (match (castVote s v c t).1 with
        | .ok _ => 1
        | .error _ => 0)
    rcases hres : (castVote s v c t).1 with e | vt
    · have hst : (castVote s v c t).2 = s := castVote_error_state s v c t ⟨e, hres⟩
      rw [hst]
      exact ⟨⟨hbound, hchain, hsum⟩, by simp⟩
    · obtain ⟨-, voter, candidate, -, -, hcand, -, hs'⟩ :=
        castVote_ok s v c t vt (castVote s v c t).2 (by rw [← hres])
      have hfresh : getA s.nextVoteId s.votes = none :=
        getA_eq_none _ _ fun p hp => Nat.ne_of_lt (hbound p hp)
      have happ : setA s.nextVoteId vt s.votes = s.votes ++ [(s.nextVoteId, vt)] :=
        setA_of_getA_none _ _ _ hfresh
      constructor
      · refine ⟨?_, ?_, ?_⟩
        · intro p hp
          rw [hs'] at hp
          simp only [happ, List.mem_append, List.mem_singleton] at hp
          rw [hs']
          rcases hp with hp | hp
          · exact Nat.lt_succ_of_lt (hbound p hp)
          · rw [hp]; exact Nat.lt_succ_self _
        · rw [hs']
          simp only [happ, List.map_append, List.map_cons, List.map_nil]
          exact chain_lt_append _ _ hchain fun x hx => by
            obtain ⟨p, hp, hpx⟩ := List.mem_map.mp hx
            exact hpx ▸ hbound p hp
        · rw [hs']
          simp only [happ, List.length_append, List.length_singleton]
          rw [sumVotes_setA_succ _ _ _ hcand, hsum]
      · rw [hs']
        simp [happ]

theorem runFrom_inv (ops : List Op) (s : ElectionState) (h : Inv s) :
    Inv (runFrom s ops) ∧
    (runFrom s ops).votes.length = s.votes.length + castSuccesses s ops := by
  induction ops generalizing s with
  | nil => simpa [runFrom, castSuccesses] using h
  | cons op rest ih =>
    obtain ⟨h1, h2⟩ := step_inv s op h
    obtain ⟨h3, h4⟩ := ih (step s op) h1
    refine ⟨h3, ?_⟩
    rw [show runFrom s (op :: rest) = runFrom (step s op) rest from rfl, h4, h2,
      show castSuccesses s (op :: rest) = _ + castSuccesses (step s op) rest from rfl]
    omega

/-! ### Concrete fixtures for witnesses -/

/-- A server state with voter 1 ("alice", 30) and candidate 7 ("bob"). -/
def sState : ElectionState :=
  (registerCandidate (registerVoter initState 1 "alice" (some 30)).2 7 "bob" "Greens").2

/-- `sState` after voter 1 successfully votes for candidate 7 at time 0. -/
def sVoted : ElectionState := (castVote sState 1 7 0).2

/-! ### Claims -/

/-- C1: casting a vote succeeds at most once per voter.  A cast for a voter
whose `has_voted` flag is true fails with `AlreadyVoted`; a successful cast
increments the chosen candidate's `votes` counter by exactly 1, sets the
voter's `has_voted` flag, and persists the `Vote` record; and immediately
after a successful cast any further cast for the same voter fails with
`AlreadyVoted`. -/
theorem claim_C1_cast_at_most_once :
    (∀ s vid cid t voter, vid ≠ 0 → cid ≠ 0 → getA vid s.voters = some voter →
      voter.has_voted = true →
      (castVote s vid cid t).1 = Except.error VoteError.alreadyVoted) ∧
    (∀ s vid cid t vt s', castVote s vid cid t = (.ok vt, s') →
      (∃ candidate, getA cid s.candidates = some candidate ∧
        getA cid s'.candidates = some { candidate with votes := candidate.votes + 1 }) ∧
      (∃ voter', getA vid s'.voters = some voter' ∧ voter'.has_voted = true) ∧
      (vt.vote_id, vt) ∈ s'.votes) ∧
    (∀ s vid cid t vt s' cid' t', castVote s vid cid t = (.ok vt, s') → cid' ≠ 0 →
      (castVote s' vid cid' t').1 = Except.error VoteError.alreadyVoted) := by
  refine ⟨?_, ?_, ?_⟩
  · intro s vid cid t voter hv hc hvoter hhv
    simp [castVote, hv, hc, hvoter, hhv]
  · intro s vid cid t vt s' h
    obtain ⟨hval, voter, candidate, hvoter, hnv, hcand, hvt, hs'⟩ :=
      castVote_ok s vid cid t vt s' h
    refine ⟨⟨candidate, hcand, ?_⟩, ⟨{ voter with has_voted := true }, ?_, rfl⟩, ?_⟩
    · rw [hs']
      exact getA_setA_self _ _ _
    · rw [hs']
      exact getA_setA_self _ _ _
    · rw [hs']
      have hid : vt.vote_id = s.nextVoteId := by rw [hvt]
      rw [hid]
      exact mem_setA_self _ _ _
  · intro s vid cid t vt s' cid' t' h hc'
    obtain ⟨hval, voter, candidate, hvoter, hnv, hcand, hvt, hs'⟩ :=
      castVote_ok s vid cid t vt s' h
    have hv : vid ≠ 0 := fun h0 => hval (Or.inl h0)
    have hget : getA vid s'.voters = some { voter with has_voted := true } := by
      rw [hs']
      exact getA_setA_self _ _ _
    simp [castVote, hv, hc', hget]

/-- Witness for C1 at concrete inputs: after voter 1 votes once, both a
repeat vote for candidate 7 and a vote for (unregistered) candidate 9 fail
with `AlreadyVoted`, and the vote record is in the ledger. -/
theorem claim_C1_cast_at_most_once_witness :
    (castVote sVoted 1 7 5).1 = Except.error VoteError.alreadyVoted ∧
    ((⟨101, 1, 7, 0⟩ : Vote).vote_id, (⟨101, 1, 7, 0⟩ : Vote)) ∈ sVoted.votes ∧
    (castVote sVoted 1 9 5).1 = Except.error VoteError.alreadyVoted :=
  ⟨claim_C1_cast_at_most_once.1 sVoted 1 7 5 ⟨1, "alice", 30, true⟩
      (by decide) (by decide) rfl rfl,
   (claim_C1_cast_at_most_once.2.1 sState 1 7 0 ⟨101, 1, 7, 0⟩ sVoted rfl).2.2,
   claim_C1_cast_at_most_once.2.2 sState 1 7 0 ⟨101, 1, 7, 0⟩ sVoted 9 5 rfl (by decide)⟩

/-- C2: after any sequence of operations against a fresh server, the sum of
the `votes` counters over all registered candidates equals the number of
`Vote` records in the ledger, which equals the number of successfully cast
votes. -/
theorem claim_C2_tally_invariant (ops : List Op) :
    sumVotes (run ops).candidates = (run ops).votes.length ∧
    (run ops).votes.length = castSuccesses initState ops := by
  obtain ⟨⟨-, -, hsum⟩, hlen⟩ := runFrom_inv ops initState inv_init
  exact ⟨hsum, by simpa [run, initState] using hlen⟩

/-- C8: the global `nextVoteId` counter starts at 101; every failed cast
leaves the whole state (in particular the counter) unchanged, since every
failure occurs before allocation; a successful cast allocates exactly the
current counter value and advances it by one; and over any run the ledger's
vote ids are strictly increasing (hence never reused). -/
theorem claim_C8_vote_id_allocation :
    initState.nextVoteId = 101 ∧
    (∀ s vid cid t e, (castVote s vid cid t).1 = Except.error e →
      (castVote s vid cid t).2 = s) ∧
    (∀ s vid cid t vt s', castVote s vid cid t = (.ok vt, s') →
      vt.vote_id = s.nextVoteId ∧ s'.nextVoteId = s.nextVoteId + 1) ∧
    (∀ ops, List.Chain' (· < ·) ((run ops).votes.map Prod.fst)) := by
  refine ⟨rfl, ?_, ?_, ?_⟩
  · intro s vid cid t e h
    exact castVote_error_state s vid cid t ⟨e, h⟩
  · intro s vid cid t vt s' h
    obtain ⟨-, voter, candidate, -, -, -, hvt, hs'⟩ := castVote_ok s vid cid t vt s' h
    exact ⟨by rw [hvt], by rw [hs']⟩
  · intro ops
    exact (runFrom_inv ops initState inv_init).1.2.1

/-- Witness for C8 at concrete inputs: a failed cast (voter 1 not yet
registered) leaves the fresh state untouched, and the successful cast in
`sVoted` advanced the counter from 101 to 102. -/
theorem claim_C8_vote_id_allocation_witness :
    (castVote initState 1 2 0).2 = initState ∧
    sVoted.nextVoteId = sState.nextVoteId + 1 :=
  ⟨claim_C8_vote_id_allocation.2.1 initState 1 2 0 VoteError.voterNotFound rfl,
   (claim_C8_vote_id_allocation.2.2.1 sState 1 7 0 ⟨101, 1, 7, 0⟩ sVoted rfl).2⟩

/-- C10: field-presence validation treats falsy-but-present values as
missing: voter registration with `voter_id` 0 or empty name, candidate
registration with `candidate_id` 0 or empty name/party, and vote casting
with `voter_id` 0 or `candidate_id` 0 all fail with the respective
`MissingField` error. -/
theorem claim_C10_falsy_fields_missing :
    (∀ s n a, (registerVoter s 0 n a).1 = Except.error RegVoterError.missingField) ∧
    (∀ s v a, (registerVoter s v "" a).1 = Except.error RegVoterError.missingField) ∧
    (∀ s n p, (registerCandidate s 0 n p).1 = Except.error RegCandError.missingField) ∧
    (∀ s cid p, (registerCandidate s cid "" p).1 = Except.error RegCandError.missingField) ∧
    (∀ s cid n, (registerCandidate s cid n "").1 = Except.error RegCandError.missingField) ∧
    (∀ s cid t, (castVote s 0 cid t).1 = Except.error VoteError.missingField) ∧
    (∀ s vid t, (castVote s vid 0 t).1 = Except.error VoteError.missingField) := by
  refine ⟨?_, ?_, ?_, ?_, ?_, ?_, ?_⟩ <;> intro s a b <;>
    simp [registerVoter, registerCandidate, castVote]

/-- C7: `range(candidate_id, from, to)` fails `NotFound` when the candidate
is absent, `InvalidInput` when either bound fails to parse, `InvalidInterval`
when `from > to`, and otherwise returns the count of that candidate's votes
with timestamp in the closed interval `[from, to]`; with `from = to` it
counts exactly the votes at that instant. -/
theorem claim_C7_range_query :
    (∀ s cid f t, getA cid s.candidates = none →
      rangeQuery s cid f t = Except.error RangeError.notFound) ∧
    (∀ s cid f t, cid ≠ 0 → getA cid s.candidates ≠ none → (f = none ∨ t = none) →
      rangeQuery s cid f t = Except.error RangeError.invalidInput) ∧
    (∀ s cid (f t : Int), cid ≠ 0 → getA cid s.candidates ≠ none → f > t →
      rangeQuery s cid (some f) (some t) = Except.error RangeError.invalidInterval) ∧
    (∀ s cid (f t : Int), cid ≠ 0 → getA cid s.candidates ≠ none → f ≤ t →
      rangeQuery s cid (some f) (some t) = Except.ok ((s.votes.filter
        (fun q => q.2.candidate_id = cid ∧ f ≤ q.2.timestamp ∧ q.2.timestamp ≤ t)).length)) ∧
    (∀ s cid (f : Int), cid ≠ 0 → getA cid s.candidates ≠ none →
      rangeQuery s cid (some f) (some f) = Except.ok ((s.votes.filter
        (fun q => q.2.candidate_id = cid ∧ q.2.timestamp = f)).length)) := by
  have key : ∀ (s : ElectionState) (cid : Int) (f t : Int), cid ≠ 0 →
      getA cid s.candidates ≠ none → f ≤ t →
      rangeQuery s cid (some f) (some t) = Except.ok ((s.votes.filter
        (fun q => q.2.candidate_id = cid ∧ f ≤ q.2.timestamp ∧ q.2.timestamp ≤ t)).length) := by
    intro s cid f t hc hcand hle
    have hnotlt : ¬ f > t := not_lt.mpr hle
    simp only [rangeQuery, hc, hcand, or_self, if_neg, if_false, hnotlt, or_false,
      false_or, if_neg (not_or.mpr ⟨hc, hcand⟩)]
    rw [List.filter_filter, List.filter_map]
    simp only [List.length_map]
    refine congrArg (fun n => (Except.ok n : Except RangeError Nat))
      (congrArg List.length (List.filter_congr ?_))
    intro q hq
    simp only [Function.comp]
    by_cases h1 : q.2.candidate_id = cid <;> by_cases h2 : f ≤ q.2.timestamp <;>
      by_cases h3 : q.2.timestamp ≤ t <;> simp [h1, h2, h3]
  refine ⟨?_, ?_, ?_, key, ?_⟩
  · intro s cid f t hcand
    simp [rangeQuery, hcand]
  · intro s cid f t hc hcand hft
    have : ¬(cid = 0 ∨ getA cid s.candidates = none) := not_or.mpr ⟨hc, hcand⟩
    rcases hft with hf | ht
    · subst hf
      simp only [rangeQuery, if_neg this]
    · subst ht
      simp only [rangeQuery, if_neg this]
  · intro s cid f t hc hcand hgt
    simp only [rangeQuery, if_neg (not_or.mpr ⟨hc, hcand⟩), if_pos hgt]
  · intro s cid f hc hcand
    rw [key s cid f f hc hcand le_rfl]
    refine congrArg (fun n => (Except.ok n : Except RangeError Nat))
      (congrArg List.length (List.filter_congr ?_))
    intro q hq
    by_cases h1 : q.2.candidate_id = cid <;> by_cases h2 : q.2.timestamp = f <;>
      (simp [h1, h2]; try omega)

/-- Witness for C7 at concrete inputs, on the state `sVoted` which has one
vote for candidate 7 at timestamp 0: absent candidate 9 gives `NotFound`,
an unparseable bound gives `InvalidInput`, `from > to` gives
`InvalidInterval`, `[0, 10]` counts 1 vote, and `from = to = 0` counts the
1 vote at that instant. -/
theorem claim_C7_range_query_witness :
    rangeQuery sVoted 9 (some 0) (some 1) = Except.error RangeError.notFound ∧
    rangeQuery sVoted 7 none (some 1) = Except.error RangeError.invalidInput ∧
    rangeQuery sVoted 7 (some 5) (some 3) = Except.error RangeError.invalidInterval ∧
    rangeQuery sVoted 7 (some 0) (some 10) = Except.ok 1 ∧
    rangeQuery sVoted 7 (some 0) (some 0) = Except.ok 1 :=
  ⟨claim_C7_range_query.1 sVoted 9 (some 0) (some 1) rfl,
   claim_C7_range_query.2.1 sVoted 7 none (some 1) (by decide) (by decide) (Or.inl rfl),
   claim_C7_range_query.2.2.1 sVoted 7 5 3 (by decide) (by decide) (by decide),
   (claim_C7_range_query.2.2.2.1 sVoted 7 0 10 (by decide) (by decide) (by decide)).trans
     (by rfl),
   (claim_C7_range_query.2.2.2.2 sVoted 7 0 (by decide) (by decide)).trans (by rfl)⟩

/-- Success branch of `submitEncrypted`, characterised. -/
theorem submitEncrypted_ok (ballots : List (String × EncBallot))
    (e c z p nf sg fid : String) (t : Int) (b : EncBallot)
    (ballots' : List (String × EncBallot))
    (h : submitEncrypted ballots e c z p nf sg fid t = (.ok b, ballots')) :
    nf ≠ "" ∧ b = ⟨fid, "accepted", nf, t⟩ ∧ ballots' = setA fid b ballots := by
  unfold submitEncrypted at h
  split at h
  · simp at h
  · rename_i hval
    split at h
    · simp at h
    · split at h
      · simp at h
      · simp only [Prod.mk.injEq, Except.ok.injEq] at h
        refine ⟨fun h0 => hval (by tauto), h.1.symm, ?_⟩
        rw [← h.2, ← h.1]

/-- C5: once an encrypted ballot with a given nullifier has been accepted,
any later submission carrying the same nullifier fails with
`DuplicateNullifier` (and leaves the store unchanged), even when all the
other fields differ from the first submission's. -/
theorem claim_C5_duplicate_nullifier :
    ∀ ballots e c z p nf sg fid (t : Int) b ballots',
      submitEncrypted ballots e c z p nf sg fid t = (.ok b, ballots') →
      ∀ e' c' z' p' sg' fid' (t' : Int),
        e' ≠ "" → c' ≠ "" → z' ≠ "" → p' ≠ "" → sg' ≠ "" →
        (submitEncrypted ballots' e' c' z' p' nf sg' fid' t').1 =
          Except.error EncError.duplicateNullifier ∧
        (submitEncrypted ballots' e' c' z' p' nf sg' fid' t').2 = ballots' := by
  intro ballots e c z p nf sg fid t b ballots' h e' c' z' p' sg' fid' t' he hc hz hp hsg
  obtain ⟨hnf, hb, hbs⟩ := submitEncrypted_ok ballots e c z p nf sg fid t b ballots' h
  have hmem : (fid, b) ∈ ballots' := hbs ▸ mem_setA_self fid b ballots
  have hany : ballots'.any (fun q => q.2.nullifier = nf) = true := by
    rw [List.any_eq_true]
    exact ⟨(fid, b), hmem, by rw [hb]; exact decide_eq_true rfl⟩
  constructor <;>
    simp [submitEncrypted, he, hc, hz, hp, hsg, hnf, hany]

/-- Witness for C5 at concrete inputs: after accepting a ballot with
nullifier "n1", a second submission with the same nullifier but entirely
different other fields fails with `DuplicateNullifier`. -/
theorem claim_C5_duplicate_nullifier_witness :
    (submitEncrypted [("b_1", ⟨"b_1", "accepted", "n1", 0⟩)]
        "e2" "c2" "z2" "p2" "n1" "s2" "b_2" 9).1 =
      Except.error EncError.duplicateNullifier :=
  (claim_C5_duplicate_nullifier [] "e1" "c1" "z1" "p1" "n1" "s1" "b_1" 0
      ⟨"b_1", "accepted", "n1", 0⟩ [("b_1", ⟨"b_1", "accepted", "n1", 0⟩)] rfl
      "e2" "c2" "z2" "p2" "s2" "b_2" 9
      (by decide) (by decide) (by decide) (by decide) (by decide)).1

theorem dpSpent_setA_self (m : List (String × ℚ)) (e : String) (v : ℚ) :
    dpSpent (setA e v m) e = v := by
  simp [dpSpent, getA_setA_self]

theorem dpSpent_setA_ne (m : List (String × ℚ)) (e e' : String) (v : ℚ) (h : e' ≠ e) :
    dpSpent (setA e v m) e' = dpSpent m e' := by
  simp [dpSpent, getA_setA_ne _ _ _ _ h]

/-- Success branch of `dpQuery`, characterised on the budget side. -/
theorem dpQuery_ok (budgets : List (String × ℚ)) (e : String) (q : DpQuery)
    (ε δ : ℚ) (noise : String → Nat) (r : DpResult) (budgets' : List (String × ℚ))
    (h : dpQuery budgets e q ε δ noise = (.ok r, budgets')) :
    0 < ε ∧ dpSpent budgets e + ε ≤ maxBudget ∧
    budgets' = setA e (dpSpent budgets e + ε) budgets := by
  unfold dpQuery at h
  split at h
  · simp at h
  · split at h
    · simp at h
    · split at h
      · simp at h
      · dsimp only at h
        split at h
        · simp at h
        · rename_i hv hε hδ hbud
          simp only [Prod.mk.injEq, Except.ok.injEq] at h
          exact ⟨not_le.mp hε, not_lt.mp hbud, h.2.symm⟩

/-- Every branch of `dpQuery` either leaves the budget map unchanged or,
on acceptance, bumps this election's spend to a value still within budget. -/
theorem dpQuery_budget_cases (budgets : List (String × ℚ)) (e : String) (q : DpQuery)
    (ε δ : ℚ) (noise : String → Nat) :
    (dpQuery budgets e q ε δ noise).2 = budgets ∨
    ((dpQuery budgets e q ε δ noise).2 = setA e (dpSpent budgets e + ε) budgets ∧
      0 < ε ∧ dpSpent budgets e + ε ≤ maxBudget) := by
  unfold dpQuery
  split
  · exact Or.inl rfl
  · split
    · exact Or.inl rfl
    · split
      · exact Or.inl rfl
      · dsimp only
        split
        · exact Or.inl rfl
        · rename_i hε hδ hbud
          exact Or.inr ⟨rfl, not_le.mp hε, not_lt.mp hbud⟩

theorem dpRunFrom_bounds (reqs : List DpReq) (budgets : List (String × ℚ))
    (h : ∀ e, 0 ≤ dpSpent budgets e ∧ dpSpent budgets e ≤ maxBudget) :
    ∀ e, 0 ≤ dpSpent (dpRunFrom budgets reqs) e ∧
      dpSpent (dpRunFrom budgets reqs) e ≤ maxBudget := by
  induction reqs generalizing budgets with
  | nil => exact h
  | cons r rest ih =>
    refine ih _ ?_
    intro e
    rcases dpQuery_budget_cases budgets r.election_id r.q r.epsilon r.delta (fun _ => 0) with
      hsame | ⟨hset, hpos, hle⟩
    · rw [hsame]
      exact h e
    · rw [hset]
      by_cases he : e = r.election_id
      · rw [he, dpSpent_setA_self]
        have h0 := (h r.election_id).1
        constructor <;> linarith
      · rw [dpSpent_setA_ne _ _ _ _ he]
        exact h e

/-- The DP query object used in concrete scenarios. -/
def dpQ : DpQuery := ⟨"histogram", "region", some ["a", "b"]⟩

/-- A fixed noise mechanism (the noise value is irrelevant to budgets). -/
def dpNoise : String → Nat := fun _ => 0

/-- C4: with valid parameters, a DP query is rejected with `BudgetExceeded`
iff the election's cumulative spent epsilon plus the requested epsilon
exceeds the maximum budget 1.0; on acceptance the spend increases by exactly
the requested epsilon (hence strictly); over any request sequence the spend
stays in `[0, 1]`; and concretely, after a query with epsilon 0.6, a query
with epsilon 0.5 on the same election fails while one with epsilon 0.4
succeeds. -/
theorem claim_C4_dp_budget :
    (∀ budgets e q ε δ noise, e ≠ "" → q.type ≠ "" → q.dimension ≠ "" →
      q.buckets ≠ none → 0 < ε → 0 ≤ δ → δ ≤ 1 →
      ((dpQuery budgets e q ε δ noise).1 = Except.error DpError.budgetExceeded ↔
        dpSpent budgets e + ε > maxBudget)) ∧
    (∀ budgets e q ε δ noise r budgets',
      dpQuery budgets e q ε δ noise = (.ok r, budgets') →
      dpSpent budgets' e = dpSpent budgets e + ε ∧
      dpSpent budgets e < dpSpent budgets' e) ∧
    (∀ reqs e, 0 ≤ dpSpent (dpRun reqs) e ∧ dpSpent (dpRun reqs) e ≤ maxBudget) ∧
    ((dpQuery (dpQuery [] "e1" dpQ (6/10) 0 dpNoise).2 "e1" dpQ (5/10) 0 dpNoise).1 =
      Except.error DpError.budgetExceeded) ∧
    (∃ r, (dpQuery (dpQuery [] "e1" dpQ (6/10) 0 dpNoise).2 "e1" dpQ (4/10) 0 dpNoise).1 =
      Except.ok r) := by
  have hfirst : (dpQuery [] "e1" dpQ (6/10) 0 dpNoise).2 = [("e1", 6/10)] := by
    simp only [dpQuery, dpQ]
    rw [if_neg (by decide)]
    norm_num [dpSpent, getA, setA, maxBudget]
  refine ⟨?_, ?_, ?_, ?_, ?_⟩
  · intro budgets e q ε δ noise he ht hd hb hε hδ0 hδ1
    have hval : ¬(e = "" ∨ q.type = "" ∨ q.dimension = "" ∨ q.buckets = none) := by
      simp [he, ht, hd, hb]
    unfold dpQuery
    rw [if_neg hval, if_neg (not_le.mpr hε),
      if_neg (not_or.mpr ⟨not_lt.mpr hδ0, not_lt.mpr hδ1⟩)]
    dsimp only
    by_cases hbud : (getA e budgets).getD 0 + ε > maxBudget
    · rw [if_pos hbud]
      exact iff_of_true rfl hbud
    · rw [if_neg hbud]
      exact iff_of_false (by simp) hbud
  · intro budgets e q ε δ noise r budgets' h
    obtain ⟨hε, hle, hset⟩ := dpQuery_ok budgets e q ε δ noise r budgets' h
    rw [hset, dpSpent_setA_self]
    constructor
    · rfl
    · linarith
  · intro reqs e
    refine dpRunFrom_bounds reqs [] ?_ e
    intro e'
    simp [dpSpent, getA, maxBudget]
  · rw [hfirst]
    simp only [dpQuery, dpQ]
    rw [if_neg (by decide)]
    norm_num [dpSpent, getA, maxBudget]
  · refine ⟨⟨"e1", "histogram", "region", [("a", 0), ("b", 0)], 4/10, 0,
      maxBudget - (6/10 + 4/10)⟩, ?_⟩
    rw [hfirst]
    simp only [dpQuery, dpQ]
    rw [if_neg (by decide)]
    norm_num [dpSpent, getA, maxBudget, dpNoise]

/-- Witness for C4 at concrete inputs: on a fresh budget map, a query with
epsilon 0.6 is not budget-rejected (0 + 0.6 ≤ 1), by the main iff. -/
theorem claim_C4_dp_budget_witness :
    ((dpQuery [] "e1" dpQ (6/10) 0 dpNoise).1 = Except.error DpError.budgetExceeded ↔
      dpSpent [] "e1" + 6/10 > maxBudget) :=
  claim_C4_dp_budget.1 [] "e1" dpQ (6/10) 0 dpNoise (by decide) (by decide) (by decide)
    (by simp [dpQ]) (by norm_num) (by norm_num) (by norm_num)

/-- C9 counterexample: a DP query whose `buckets` is a present-but-empty
array is NOT rejected with `MissingField` — an empty array is truthy in
JavaScript, so `!query.buckets` is false and the query succeeds with an
empty histogram. -/
theorem claim_C9_counterexample_empty_buckets_accepted :
    (dpQuery [] "e1" ⟨"histogram", "region", some []⟩ (1/2) 0 dpNoise).1 ≠
      Except.error DpError.missingField ∧
    (∃ r, (dpQuery [] "e1" ⟨"histogram", "region", some []⟩ (1/2) 0 dpNoise).1 =
      Except.ok r) := by
  have h : (dpQuery [] "e1" ⟨"histogram", "region", some []⟩ (1/2) 0 dpNoise).1 =
      Except.ok ⟨"e1", "histogram", "region", [], 1/2, 0, maxBudget - (0 + 1/2)⟩ := by
    simp only [dpQuery]
    rw [if_neg (by decide)]
    norm_num [dpSpent, getA, maxBudget, dpNoise]
  constructor
  · rw [h]
    simp
  · exact ⟨_, h⟩

/-- C9 (amended): a DP query whose `buckets` field is absent (falsy) fails
with `MissingField`, for every election and all epsilon/delta; but an empty
buckets array passes validation: with valid epsilon and delta and enough
remaining budget the query succeeds with an empty histogram. -/
theorem claim_C9_buckets_validation :
    (∀ budgets e q ε δ noise, q.buckets = none →
      (dpQuery budgets e q ε δ noise).1 = Except.error DpError.missingField) ∧
    (∀ budgets e q ε δ noise, e ≠ "" → q.type ≠ "" → q.dimension ≠ "" →
      q.buckets = some [] → 0 < ε → 0 ≤ δ → δ ≤ 1 →
      dpSpent budgets e + ε ≤ maxBudget →
      (dpQuery budgets e q ε δ noise).1 = Except.ok
        ⟨e, q.type, q.dimension, [], ε, δ, maxBudget - (dpSpent budgets e + ε)⟩) := by
  constructor
  · intro budgets e q ε δ noise hb
    simp [dpQuery, hb]
  · intro budgets e q ε δ noise he ht hd hb hε hδ0 hδ1 hbud
    have hval : ¬(e = "" ∨ q.type = "" ∨ q.dimension = "" ∨ q.buckets = none) := by
      simp [he, ht, hd, hb]
    unfold dpQuery
    rw [if_neg hval, if_neg (not_le.mpr hε),
      if_neg (not_or.mpr ⟨not_lt.mpr hδ0, not_lt.mpr hδ1⟩)]
    dsimp only
    rw [if_neg (show ¬((getA e budgets).getD 0 + ε > maxBudget) from not_lt.mpr hbud)]
    simp [hb, dpSpent]

/-- Witness for C9 (amended) at concrete inputs: absent buckets give
`MissingField`; an empty buckets array succeeds. -/
theorem claim_C9_buckets_validation_witness :
    (dpQuery [] "e1" ⟨"histogram", "region", none⟩ (1/2) 0 dpNoise).1 =
      Except.error DpError.missingField ∧
    (dpQuery [] "e2" ⟨"histogram", "region", some []⟩ (1/2) 0 dpNoise).1 =
      Except.ok ⟨"e2", "histogram", "region", [], 1/2, 0,
        maxBudget - (dpSpent [] "e2" + 1/2)⟩ :=
  ⟨claim_C9_buckets_validation.1 [] "e1" ⟨"histogram", "region", none⟩ (1/2) 0 dpNoise rfl,
   claim_C9_buckets_validation.2 [] "e2" ⟨"histogram", "region", some []⟩ (1/2) 0 dpNoise
     (by decide) (by decide) (by decide) rfl (by norm_num) (by norm_num) (by norm_num)
     (by norm_num [dpSpent, getA, maxBudget])⟩

/-- C3 (code bug): for every well-formed aggregate request (non-empty share
list, every share complete), the homomorphic-tally handler does not build a
per-candidate tally list and does not store a result keyed by election_id:
it throws `TypeError: candidates.map is not a function` (line 457 calls
`.map` on a JS `Map`) and leaves the tally store unchanged. -/
theorem claim_C3_homomorphic_crash :
    ∀ tallies e shares, e ≠ "" → shares ≠ [] →
      (∀ sh ∈ shares, sh.trustee_id ≠ "" ∧ sh.share ≠ "" ∧ sh.proof ≠ "") →
      homomorphicTally tallies e (some shares) =
        (HomoOutcome.typeError "candidates.map is not a function", tallies) := by
  intro tallies e shares he hne hsh
  have hlen : ¬(e = "" ∨ shares.length = 0) := by
    simp [he, List.length_eq_zero, hne]
  unfold homomorphicTally
  dsimp only
  rw [if_neg hlen, if_neg (by simpa using hsh)]

/-- Witness for C3 at a concrete well-formed request: one complete trustee
share, fresh store — the handler crashes and stores nothing. -/
theorem claim_C3_homomorphic_crash_witness :
    homomorphicTally [] "e1" (some [⟨"t1", "s1", "p1"⟩]) =
      (HomoOutcome.typeError "candidates.map is not a function", []) :=
  claim_C3_homomorphic_crash [] "e1" [⟨"t1", "s1", "p1"⟩] (by decide) (by decide)
    (by decide)

/-- C6 (code bug): the ranked-ballot duplicate check keys on the
concatenation `election_id ++ "_" ++ voter_id`, so the distinct pairs
("e1_2", "v") and ("e1", "2_v") collide.  A repeat submission for the same
pair is rejected (as claimed), but a first submission for the pair
("e1", "2_v") — for which no ballot is stored — is also rejected with
`DuplicateBallot`, refuting the "exactly when" part of the claim. -/
theorem claim_C6_ranked_key_collision :
    (submitRanked [] "e1_2" "v" (some [1]) (some 0) "rb_1").1 =
      Except.ok ⟨"rb_1", "e1_2", "v", [1], 0⟩ ∧
    ((submitRanked (submitRanked [] "e1_2" "v" (some [1]) (some 0) "rb_1").2
        "e1_2" "v" (some [9, 8]) (some 5) "rb_3").1 =
      Except.error RankError.duplicateBallot) ∧
    ((submitRanked (submitRanked [] "e1_2" "v" (some [1]) (some 0) "rb_1").2
        "e1" "2_v" (some [2]) (some 0) "rb_2").1 =
      Except.error RankError.duplicateBallot) ∧
    (∀ b ∈ (submitRanked [] "e1_2" "v" (some [1]) (some 0) "rb_1").2,
      ¬(b.2.election_id = "e1" ∧ b.2.voter_id = "2_v")) :=
  ⟨rfl, rfl, rfl, by decide⟩

end ElectionServer
